import Mathlib

/-!
Verification development for the Legal AI Assistant repository: a shallow
embedding of the data model and operations of the resilient multi-stage
pipeline (multi-provider LLM client, case-law aggregation with caching,
workflow engine, hybrid retriever) and of the frontend search hooks, with
theorems settling the specification's claims against them.
-/

/-! ## Frontend: QueryInput component, useSearchResults and useSearchHistory hooks -/

namespace Frontend

/-- A search result item as declared in ResultsList.tsx; its `kind` field is
the discriminator written `type` in the TypeScript source (`norm` or `case`). -/
structure SearchResult where
  id : String
  title : String
  kind : String
  description : Option String
  source : Option String
  date : Option String
  number : Option String
deriving DecidableEq, Repr

/-- State held by the useSearchResults hook: `results`, `loading`, `error`. -/
structure SearchState where
  results : List SearchResult
  loading : Bool
  error : Option String
deriving DecidableEq, Repr

/-- The possible outcomes of the fetch performed inside useSearchResults.search:
the fetch promise rejects, the response arrives with a non-ok status, the JSON
body fails to parse, or the body parses and its `results` field is present or
absent. -/
inductive FetchOutcome where
  | netFailure (message : String)
  | httpFailure (status : Nat)
  | parseFailure (message : String)
  | success (resultsField : Option (List SearchResult))
deriving DecidableEq, Repr

/-- Whether the fetch outcome takes the catch branch of useSearchResults.search:
a rejected fetch, a non-ok response (which throws), or a JSON parse failure. -/
def FetchOutcome.isFailure : FetchOutcome → Bool
  | .success _ => false
  | _ => true

/-- useSearchResults.search: sets loading true and clears the error, runs the
request, then on success stores `data.results || []`, on any thrown error
stores the message and empties the results, and finally clears loading. -/
def search (st : SearchState) (o : FetchOutcome) : SearchState :=
  let st1 : SearchState := { st with loading := true, error := none }
  let st2 : SearchState :=
    match o with
    | .netFailure m => { st1 with error := some m, results := [] }
    | .httpFailure status =>
        { st1 with error := some ("Ошибка сервера: " ++ toString status), results := [] }
    | .parseFailure m => { st1 with error := some m, results := [] }
    | .success rs => { st1 with results := rs.getD [] }
  { st2 with loading := false }

/-- MAX_HISTORY from useSearchHistory. -/
def MAX_HISTORY : Nat := 10

/-- useSearchHistory.addToHistory: remove existing occurrences of the query,
prepend it, and keep at most MAX_HISTORY entries. -/
def addToHistory (query : String) (prev : List String) : List String :=
  let filtered := prev.filter (fun item => item ≠ query)
  (query :: filtered).take MAX_HISTORY

/-- The JavaScript String.prototype.trim operation: strip whitespace from
both ends of the string. -/
def jsTrim (s : String) : String :=
  String.mk
    (((s.data.dropWhile Char.isWhitespace).reverse.dropWhile
        Char.isWhitespace).reverse)

/-- QueryInput.handleSearch: invokes onSearch with the untrimmed query exactly
when the trimmed query is truthy (nonempty); the returned value is the
argument passed to onSearch, if it was invoked. -/
def handleSearch (query : String) : Option String :=
  if jsTrim query ≠ "" then some query else none

/-- QueryInput.handleKeyPress: invokes onSearch with the untrimmed query when
the pressed key is Enter and the trimmed query is nonempty. -/
def handleKeyPress (key : String) (query : String) : Option String :=
  if key = "Enter" ∧ jsTrim query ≠ "" then some query else none

/-- The disabled condition of the QueryInput search button:
`loading || !query.trim()`. -/
def searchButtonDisabled (loading : Bool) (query : String) : Bool :=
  loading || jsTrim query == ""

end Frontend

/-! ## Multi-provider LLM client (MultiLLMClient with retry and fallback) -/

namespace LLM

/-- Modelled from the spec: a ProviderClient (OpenRouterClient,
PerplexityClient from src/llm, whose code is not among the sources) is
reduced to its name and the outcome of each successive underlying API call:
`attempt i` is the result of the i-th invocation, either generated content
or a failure reason. -/
structure Provider where
  name : String
  attempt : Nat → Except String String

/-- A successful generation, tagged with the producing provider's name
(the `provider` field of LLMResponse observed in the documentation). -/
structure LLMResponse where
  content : String
  provider : String
deriving DecidableEq, Repr

/-- The fixed retry bound: 3 attempts with exponential backoff per provider. -/
def RETRY_ATTEMPTS : Nat := 3

/-- Modelled from the spec: the per-provider retry loop (tenacity-style,
3 attempts with exponential backoff; the backoff delays do not affect the
result and are not modelled). Starting at attempt index `start` with `bound`
attempts remaining, returns the number of invocations actually made and the
final outcome: the first success, or the last attempt's failure reason. -/
def retryGenerate (p : Provider) : Nat → Nat → Nat × Except String String
  | _, 0 => (0, Except.error "no attempts made")
  | start, n + 1 =>
    match p.attempt start with
    | Except.ok c => (1, Except.ok c)
    | Except.error e =>
      if n = 0 then (1, Except.error e)
      else
        let r := retryGenerate p (start + 1) n
        (r.1 + 1, r.2)

/-- Modelled from the spec: MultiLLMClient's provider loop. Each provider in
order is given its full retry budget; the first success is returned tagged
with that provider's name; when the list is exhausted the accumulated
failures — one (provider name, last failure reason) pair per provider, in
order — form the aggregated error. -/
def generateFrom : List Provider → List (String × String) →
    Except (List (String × String)) LLMResponse
  | [], errs => Except.error errs.reverse
  | p :: rest, errs =>
    match (retryGenerate p 0 RETRY_ATTEMPTS).2 with
    | Except.ok c => Except.ok ⟨c, p.name⟩
    | Except.error e => generateFrom rest ((p.name, e) :: errs)

/-- Modelled from the spec: MultiLLMClient.generate. With useFallback true the
ordered provider list is tried with retry-then-failover; with useFallback
false only the primary is attempted. -/
def generate (providers : List Provider) (useFallback : Bool) :
    Except (List (String × String)) LLMResponse :=
  if useFallback then
    generateFrom providers []
  else
    match providers with
    | [] => Except.error []
    | p :: _ =>
      match (retryGenerate p 0 RETRY_ATTEMPTS).2 with
      | Except.ok c => Except.ok ⟨c, p.name⟩
      | Except.error e => Except.error [(p.name, e)]

/-- Whether a provider's full retry budget ends in success. -/
def succeeds (p : Provider) : Bool :=
  match (retryGenerate p 0 RETRY_ATTEMPTS).2 with
  | Except.ok _ => true
  | Except.error _ => false

/-- The first provider in the list whose retry budget ends in success. -/
def firstSuccess : List Provider → Option Provider
  | [] => none
  | p :: rest => if succeeds p then some p else firstSuccess rest

/-- The failure reason of the last retry attempt of a provider (meaningful
when the provider's whole retry budget fails). -/
def lastFailure (p : Provider) : String :=
  match (retryGenerate p 0 RETRY_ATTEMPTS).2 with
  | Except.ok _ => ""
  | Except.error e => e

/-- A provider whose every underlying call fails with a timeout. -/
def orFail : Provider := ⟨"openrouter", fun _ => Except.error "Timeout error"⟩

/-- A provider whose every underlying call succeeds. -/
def pxOk : Provider := ⟨"perplexity", fun _ => Except.ok "ответ"⟩

/-- A provider whose every underlying call fails with an auth error. -/
def pxFail : Provider := ⟨"perplexity", fun _ => Except.error "401 Unauthorized"⟩

end LLM

/-! ## Case-law aggregation: search_cases node, KadParser and the result cache -/

namespace CaseLaw

/-- A case record as produced by the case-law parsers. -/
structure CaseRecord where
  case_number : String
  court : String
  parties : List String
  summary : String
deriving DecidableEq, Repr

/-- The outcome of invoking one external case-law source: the list of
matching cases, or the message of a raised exception. -/
abbrev SourceResult := Except String (List CaseRecord)

/-- One stage of the search_cases fallback chain: on success with a nonempty
(truthy) result return it, otherwise fall through to `next`; a raised
exception is swallowed and also falls through. -/
def trySource (res : SourceResult) (next : List CaseRecord) : List CaseRecord :=
  match res with
  | Except.ok cs => if cs.isEmpty then next else cs
  | Except.error _ => next

/-- The final block of search_cases: search_rospravosud's result is computed
and bound to the local variable, but the function then returns the empty
list, so the value is discarded whatever it is. -/
def thirdStage (rosRes : SourceResult) : List CaseRecord :=
  match rosRes with
  | Except.ok _ => []
  | Except.error _ => []

/-- search_cases from nodes.py as shown in the data-sources document: try
kad.arbitr.ru, then sudact.ru, each returning immediately on a nonempty
result and absorbing exceptions; then the rospravosudie.com block, after
which the empty list is returned unconditionally. -/
def search_cases (kadRes sudactRes rosRes : SourceResult) : List CaseRecord :=
  trySource kadRes (trySource sudactRes (thirdStage rosRes))

/-- The result cache: entries of key, cached case list, and absolute expiry
time in seconds; lookups take the most recent entry for a key. -/
abbrev Cache := List (String × List CaseRecord × Nat)

/-- The cache TTL used by cache_search_result: one hour. -/
def CACHE_TTL : Nat := 3600

/-- The cache key derivation used by scripts/cache.py. -/
def cacheKey (query : String) : String := "search:" ++ query

/-- redis setex: store `value` under `key`, expiring CACHE_TTL-style `ttl`
seconds after `now`. -/
def setex (cache : Cache) (key : String) (ttl : Nat) (value : List CaseRecord)
    (now : Nat) : Cache :=
  (key, value, now + ttl) :: cache

/-- redis get with lazy expiry: the newest entry for the key, if not expired. -/
def cacheGet (cache : Cache) (key : String) (now : Nat) :
    Option (List CaseRecord) :=
  match cache.find? (fun e => e.1 == key) with
  | some e => if now < e.2.2 then some e.2.1 else none
  | none => none

/-- cache_search_result from scripts/cache.py: caches the search result for
one hour (ttl = 3600) under the key derived from the query. -/
def cache_search_result (cache : Cache) (now : Nat) (query : String)
    (result : List CaseRecord) : Cache :=
  setex cache (cacheKey query) CACHE_TTL result now

/-- get_cached_result from scripts/cache.py. -/
def get_cached_result (cache : Cache) (now : Nat) (query : String) :
    Option (List CaseRecord) :=
  cacheGet cache (cacheKey query) now

/-- KadParser.search_cases with caching, from the data-sources document:
check the cache and return a truthy (nonempty) cached value without
searching; otherwise run the underlying search (`searchResult` stands for
what self._search returns), cache it, and return it. The third component
counts the external search calls performed (0 or 1). The Python truthiness
test `if cached:` treats an empty cached list like a miss. -/
def kadSearchCached (cache : Cache) (now : Nat) (query : String)
    (searchResult : List CaseRecord) : List CaseRecord × Cache × Nat :=
  match get_cached_result cache now query with
  | some cached =>
    if cached.isEmpty then
      (searchResult, cache_search_result cache now query searchResult, 1)
    else
      (cached, cache, 0)
  | none => (searchResult, cache_search_result cache now query searchResult, 1)

/-- A concrete case record found at rospravosudie.com. -/
def rosCase : CaseRecord :=
  ⟨"А40-123456/2024", "АС города Москвы", ["ООО Ромашка", "ООО Лютик"],
   "Иск о взыскании неустойки удовлетворён"⟩

/-- A concrete case record for cache scenarios. -/
def kadCase : CaseRecord :=
  ⟨"А40-7/2023", "АС Московской области", ["ИП Иванов", "ООО Вектор"],
   "Решение о взыскании задолженности"⟩

/-- A cache holding a non-expired entry whose value is the empty list. -/
def emptyEntryCache : Cache := [("search:неустойка", [], 100)]

end CaseLaw

/-! ## Workflow engine and the LangGraph pipeline -/

namespace Graph

/-- AgentState from src/graph/state.py: the shared pipeline state record. -/
structure AgentState where
  query : String
  law_type : Option String
  norms : List String
  cases : List CaseLaw.CaseRecord
  answer : Option String
  trace : List String
  error : Option String
deriving DecidableEq, Repr

/-- A pipeline stage: its node name and a state transformer that may raise. -/
structure Stage where
  name : String
  run : AgentState → Except String AgentState

/-- Modelled from the spec: the workflow engine's per-stage error policy
(src/graph/workflow.py is not among the sources): an uncaught stage failure
is recorded in state.error and the run continues with the next stage
instead of aborting. -/
def runStage (st : AgentState) (s : Stage) : AgentState :=
  match s.run st with
  | Except.ok st2 => st2
  | Except.error e => { st with error := some e }

/-- Modelled from the spec: the engine runs the statically declared stage
sequence left to right over the shared state, reaching the terminal state
after the last declared stage. -/
def engineRun (stages : List Stage) (st : AgentState) : AgentState :=
  stages.foldl runStage st

/-- The five node names of the graph, in declared execution order. -/
def NODES : List String :=
  ["classify_query", "search_norms", "search_cases", "generate_answer",
   "verify_citation"]

/-- Modelled from the spec: the classify_query node sets law_type from the
query and appends its own name to the trace, as the node skeletons in the
LangGraph documents show. -/
def classify_query (classifier : String → String) (st : AgentState) :
    AgentState :=
  { st with law_type := some (classifier st.query),
            trace := st.trace ++ ["classify_query"] }

/-- Modelled from the spec: the search_norms node stores the retrieved norm
chunks and appends its own name to the trace. -/
def search_norms (retrieved : List String) (st : AgentState) : AgentState :=
  { st with norms := retrieved, trace := st.trace ++ ["search_norms"] }

/-- The search_cases node: stores the result of the case-law fallback chain
and appends its own name to the trace. -/
def search_cases_node (kadRes sudactRes rosRes : CaseLaw.SourceResult)
    (st : AgentState) : AgentState :=
  { st with cases := CaseLaw.search_cases kadRes sudactRes rosRes,
            trace := st.trace ++ ["search_cases"] }

/-- Modelled from the spec: the generate_answer node stores the LLM answer
and appends its own name to the trace. -/
def generate_answer (llm : String → String) (st : AgentState) : AgentState :=
  { st with answer := some (llm st.query),
            trace := st.trace ++ ["generate_answer"] }

/-- Modelled from the spec: the verify_citation node checks the answer's
citations against the evidence and appends its own name to the trace. -/
def verify_citation (st : AgentState) : AgentState :=
  { st with trace := st.trace ++ ["verify_citation"] }

/-- Modelled from the spec: the compiled graph — the five nodes wired in the
fixed order START → classify_query → search_norms → search_cases →
generate_answer → verify_citation → END. -/
def legalGraph (classifier : String → String) (retrieved : List String)
    (kadRes sudactRes rosRes : CaseLaw.SourceResult)
    (llm : String → String) : List Stage :=
  [⟨"classify_query", fun st => Except.ok (classify_query classifier st)⟩,
   ⟨"search_norms", fun st => Except.ok (search_norms retrieved st)⟩,
   ⟨"search_cases", fun st => Except.ok (search_cases_node kadRes sudactRes rosRes st)⟩,
   ⟨"generate_answer", fun st => Except.ok (generate_answer llm st)⟩,
   ⟨"verify_citation", fun st => Except.ok (verify_citation st)⟩]

/-- An initial pipeline state for a given query. -/
def initState (query : String) : AgentState :=
  ⟨query, none, [], [], none, [], none⟩

/-- A stage that always raises. -/
def failingStage : Stage := ⟨"search_norms", fun _ => Except.error "db down"⟩

/-- A stage that returns the state unchanged. -/
def noopStage : Stage := ⟨"noop", fun st => Except.ok st⟩

end Graph

/-! ## Hybrid retriever -/

namespace Retriever

/-- A chunk of statutory text as stored in the index: text, embedding handled
behind the scoring functions, source code, optional article number, and the
offset of the window in its source document. -/
structure Chunk where
  id : Nat
  text : String
  sourceCode : String
  articleNumber : Option String
  offset : Nat
deriving DecidableEq, Repr

/-- A chunk paired with its final combined score. -/
structure ScoredChunk where
  chunk : Chunk
  score : Rat
deriving DecidableEq, Repr

/-- Candidate ordering for one ranking: higher score first, ties broken by
earlier offset for determinism. -/
def byScoreLE (f : Chunk → Rat) (a b : Chunk) : Bool :=
  decide (f b < f a ∨ (f a = f b ∧ a.offset ≤ b.offset))

/-- Modelled from the spec: one candidate ranking (lexical or vector),
truncated to the internal candidate width K. -/
def topK (f : Chunk → Rat) (corpus : List Chunk) (K : Nat) : List Chunk :=
  (corpus.mergeSort (byScoreLE f)).take K

/-- Merge the two candidate lists by chunk identity, keeping the first
occurrence of each chunk id. -/
def dedupById : List Chunk → List Chunk
  | [] => []
  | c :: rest => c :: dedupById (rest.filter fun d => d.id ≠ c.id)
termination_by l => l.length
decreasing_by
  simpa using Nat.lt_succ_of_le (List.length_filter_le _ rest)

/-- Modelled from the spec: normalization of one raw ranking score over the
merged candidate set (division by the maximum raw score, 0 when the maximum
is 0). -/
def normalize (f : Chunk → Rat) (cands : List Chunk) (c : Chunk) : Rat :=
  let m := (cands.map f).foldr max 0
  if m = 0 then 0 else f c / m

/-- Modelled from the spec: the final score of a merged candidate, a weighted
combination of its normalized lexical and vector scores. -/
def finalScore (lex vec : Chunk → Rat) (wLex wVec : Rat)
    (merged : List Chunk) (c : Chunk) : Rat :=
  wLex * normalize lex merged c + wVec * normalize vec merged c

/-- Final output ordering: descending final score, ties broken by earliest
chunk offset. -/
def rankLE (a b : ScoredChunk) : Bool :=
  decide (b.score < a.score ∨
    (a.score = b.score ∧ a.chunk.offset ≤ b.chunk.offset))

/-- Modelled from the spec: HybridRetriever.retrieve (src/rag/retriever.py is
not among the sources). Lexical and vector rankings are each truncated to
the candidate width K = 3 * topN, merged by chunk id, rescored by the
weighted combination of normalized scores, sorted by final score descending
with ties by earliest offset, and truncated to topN. -/
def retrieve (lex vec : Chunk → Rat) (wLex wVec : Rat) (corpus : List Chunk)
    (topN : Nat) : List ScoredChunk :=
  let K := 3 * topN
  let lexCand := topK lex corpus K
  let vecCand := topK vec corpus K
  let merged := dedupById (lexCand ++ vecCand)
  let scored := merged.map fun c =>
    ScoredChunk.mk c (finalScore lex vec wLex wVec merged c)
  (scored.mergeSort rankLE).take topN

/-- A two-chunk corpus for concrete evaluations. -/
def chunkA : Chunk := ⟨0, "Статья 330. Неустойка", "ГК", some "330", 0⟩

/-- The second chunk of the concrete corpus. -/
def chunkB : Chunk := ⟨1, "Статья 331. Форма соглашения", "ГК", some "331", 900⟩

end Retriever

/-! ## Theorems -/

theorem addToHistory_eq (q : String) (prev : List String) :
    Frontend.addToHistory q prev =
      q :: (prev.filter (fun item => item ≠ q)).take 9 := by
  have h10 : Frontend.MAX_HISTORY = 9 + 1 := rfl
  simp only [Frontend.addToHistory, h10, List.take_succ_cons]

theorem mem_filter_ne {l : List String} {q x : String}
    (hx : x ∈ l.filter (fun item => item ≠ q)) : x ≠ q := by
  have := (List.mem_filter.mp hx).2
  simpa using this

/-- C8: a completed useSearchResults.search call always ends with loading
false, the error is cleared exactly when the request succeeded, a success
stores the response's results field (defaulted to the empty list), and any
failure stores an error message and empties the results, so a failed search
never leaves stale results visible. -/
theorem C8_search_resolution (st : Frontend.SearchState)
    (o : Frontend.FetchOutcome) :
    (Frontend.search st o).loading = false ∧
    ((Frontend.search st o).error = none ↔ o.isFailure = false) ∧
    (∀ rs, o = Frontend.FetchOutcome.success rs →
        (Frontend.search st o).results = rs.getD []) ∧
    (o.isFailure = true →
        ∃ m, (Frontend.search st o).error = some m ∧
          (Frontend.search st o).results = []) := by
  cases o <;>
    simp [Frontend.search, Frontend.FetchOutcome.isFailure]

/-- Witness for C8 at concrete inputs: a successful response stores its
results, and an HTTP 500 failure stores an error message and clears the
results. -/
theorem C8_search_resolution_witness :
    ((Frontend.search ⟨[], false, none⟩
        (Frontend.FetchOutcome.success
          (some [⟨"1", "ГК 330", "norm", none, none, none, none⟩]))).results =
      [⟨"1", "ГК 330", "norm", none, none, none, none⟩]) ∧
    (∃ m, (Frontend.search ⟨[], false, none⟩
        (Frontend.FetchOutcome.httpFailure 500)).error = some m ∧
      (Frontend.search ⟨[], false, none⟩
        (Frontend.FetchOutcome.httpFailure 500)).results = []) :=
  ⟨(C8_search_resolution ⟨[], false, none⟩ _).2.2.1
      (some [⟨"1", "ГК 330", "norm", none, none, none, none⟩]) rfl,
   (C8_search_resolution ⟨[], false, none⟩ _).2.2.2 rfl⟩

/-- C9 counterexample: on a history that already contains duplicates (the
hook loads whatever JSON array localStorage holds), addToHistory can return
a list with duplicate entries, so the claim's guarantee fails for arbitrary
current history lists. -/
theorem C9_addToHistory_counterexample :
    ¬ (Frontend.addToHistory "b" ["a", "a"]).Nodup := by
  decide

/-- C9 amended: for every duplicate-free current history list, addToHistory
puts the query first, keeps the list duplicate-free, bounds its length by
MAX_HISTORY, is idempotent for the same query, and adding an already
present query does not grow the list. -/
theorem C9_addToHistory_amended (prev : List String) (q : String)
    (hnd : prev.Nodup) :
    (Frontend.addToHistory q prev).head? = some q ∧
    (Frontend.addToHistory q prev).Nodup ∧
    (Frontend.addToHistory q prev).length ≤ Frontend.MAX_HISTORY ∧
    Frontend.addToHistory q (Frontend.addToHistory q prev) =
      Frontend.addToHistory q prev ∧
    (q ∈ prev → (Frontend.addToHistory q prev).length ≤ prev.length) := by
  rw [addToHistory_eq]
  refine ⟨rfl, ?_, ?_, ?_, ?_⟩
  · refine List.Nodup.cons ?_ ?_
    · intro hq
      exact mem_filter_ne ((List.take_sublist 9 _).subset hq) rfl
    · exact ((List.take_sublist 9 _).nodup) (hnd.filter _)
  · simp only [List.length_cons, List.length_take, Frontend.MAX_HISTORY]
    omega
  · rw [addToHistory_eq]
    have hfil : (q :: (prev.filter (fun item => item ≠ q)).take 9).filter
        (fun item => item ≠ q) = (prev.filter (fun item => item ≠ q)).take 9 := by
      rw [List.filter_cons, if_neg (by simp)]
      exact List.filter_eq_self.mpr
        (fun a ha => by
          simpa using mem_filter_ne ((List.take_sublist 9 _).subset ha))
    rw [hfil, List.take_take, min_self]
  · intro hq
    have hsplit : prev.length =
        (prev.filter (fun item => item ≠ q)).length +
        (prev.filter (fun item => !(decide (item ≠ q)))).length := by
      simpa using List.length_eq_length_filter_add
        (l := prev) (fun item => decide (item ≠ q))
    have hqmem : q ∈ prev.filter (fun item => !(decide (item ≠ q))) := by
      simp [List.mem_filter, hq]
    have hpos : 0 < (prev.filter (fun item => !(decide (item ≠ q)))).length :=
      List.length_pos.mpr (List.ne_nil_of_mem hqmem)
    simp only [List.length_cons, List.length_take]
    omega

/-- Witness for C9 at a concrete duplicate-free history containing the query. -/
theorem C9_addToHistory_amended_witness :
    (Frontend.addToHistory "c" ["a", "c"]).Nodup ∧
    (Frontend.addToHistory "c" ["a", "c"]).length ≤
      (["a", "c"] : List String).length :=
  ⟨(C9_addToHistory_amended ["a", "c"] "c" (by decide)).2.1,
   (C9_addToHistory_amended ["a", "c"] "c" (by decide)).2.2.2.2
     (by decide)⟩

/-- C10: QueryInput invokes onSearch only when the trimmed query is nonempty,
on both the click path and the Enter-key path, always passing the original
untrimmed query; for blank input neither path invokes onSearch and the
button is disabled. -/
theorem C10_queryInput_guard (query key : String) :
    (∀ s, Frontend.handleSearch query = some s →
        s = query ∧ Frontend.jsTrim query ≠ "") ∧
    (∀ s, Frontend.handleKeyPress key query = some s →
        s = query ∧ key = "Enter" ∧ Frontend.jsTrim query ≠ "") ∧
    (Frontend.jsTrim query = "" →
        Frontend.handleSearch query = none ∧
        Frontend.handleKeyPress key query = none ∧
        ∀ loading, Frontend.searchButtonDisabled loading query = true) := by
  by_cases h : Frontend.jsTrim query = "" <;>
    simp [Frontend.handleSearch, Frontend.handleKeyPress,
      Frontend.searchButtonDisabled, h]

/-- Witness for C10: a query with surrounding whitespace is passed untrimmed,
and a blank query triggers neither path and disables the button. -/
theorem C10_queryInput_guard_witness :
    (" ст 330 " = " ст 330 " ∧ Frontend.jsTrim " ст 330 " ≠ "") ∧
    (Frontend.handleSearch "  " = none ∧
     Frontend.handleKeyPress "Enter" "  " = none ∧
     ∀ loading, Frontend.searchButtonDisabled loading "  " = true) :=
  ⟨(C10_queryInput_guard " ст 330 " "Enter").1 " ст 330 " (by decide),
   (C10_queryInput_guard "  " "Enter").2.2 (by decide)⟩

theorem retryGenerate_allFail (p : LLM.Provider) (e0 e1 e2 : String)
    (h0 : p.attempt 0 = Except.error e0)
    (h1 : p.attempt 1 = Except.error e1)
    (h2 : p.attempt 2 = Except.error e2) :
    LLM.retryGenerate p 0 LLM.RETRY_ATTEMPTS = (3, Except.error e2) := by
  simp [LLM.RETRY_ATTEMPTS, LLM.retryGenerate, h0, h1, h2]

theorem generateFrom_firstSuccess (l : List LLM.Provider) (q : LLM.Provider)
    (errs : List (String × String)) (hq : LLM.firstSuccess l = some q) :
    ∃ r, LLM.generateFrom l errs = Except.ok r ∧ r.provider = q.name := by
  induction l generalizing errs with
  | nil => simp [LLM.firstSuccess] at hq
  | cons p rest ih =>
    by_cases hs : LLM.succeeds p = true
    · have hpq : p = q := by
        simpa [LLM.firstSuccess, hs] using hq
      rcases hok : (LLM.retryGenerate p 0 LLM.RETRY_ATTEMPTS).2 with e | c
      · simp [LLM.succeeds, hok] at hs
      · exact ⟨⟨c, p.name⟩, by simp [LLM.generateFrom, hok], by rw [hpq]⟩
    · have hq2 : LLM.firstSuccess rest = some q := by
        simpa [LLM.firstSuccess, hs] using hq
      rcases hok : (LLM.retryGenerate p 0 LLM.RETRY_ATTEMPTS).2 with e | c
      · rw [show LLM.generateFrom (p :: rest) errs =
            LLM.generateFrom rest ((p.name, e) :: errs) from by
          simp [LLM.generateFrom, hok]]
        exact ih ((p.name, e) :: errs) hq2
      · exact absurd (by simp [LLM.succeeds, hok]) hs

/-- C1: when the primary provider fails all three retry attempts and a later
provider in the ordered list succeeds, generate with useFallback returns a
response tagged with the first succeeding provider's name, and the primary
was invoked exactly RETRY_ATTEMPTS = 3 times before failover. -/
theorem C1_retry_then_failover (primary : LLM.Provider)
    (rest : List LLM.Provider) (q : LLM.Provider) (e0 e1 e2 : String)
    (h0 : primary.attempt 0 = Except.error e0)
    (h1 : primary.attempt 1 = Except.error e1)
    (h2 : primary.attempt 2 = Except.error e2)
    (hq : LLM.firstSuccess rest = some q) :
    (∃ r, LLM.generate (primary :: rest) true = Except.ok r ∧
        r.provider = q.name) ∧
    (LLM.retryGenerate primary 0 LLM.RETRY_ATTEMPTS).1 = LLM.RETRY_ATTEMPTS := by
  have hr := retryGenerate_allFail primary e0 e1 e2 h0 h1 h2
  have h2nd : (LLM.retryGenerate primary 0 LLM.RETRY_ATTEMPTS).2 =
      Except.error e2 := by rw [hr]
  constructor
  · have hstep : LLM.generate (primary :: rest) true =
        LLM.generateFrom rest [(primary.name, e2)] := by
      simp [LLM.generate, LLM.generateFrom, h2nd]
    rw [hstep]
    exact generateFrom_firstSuccess rest q _ hq
  · rw [hr]; rfl

/-- Witness for C1: an openrouter provider timing out on all attempts and a
succeeding perplexity fallback. -/
theorem C1_retry_then_failover_witness :
    (∃ r, LLM.generate (LLM.orFail :: [LLM.pxOk]) true = Except.ok r ∧
        r.provider = LLM.pxOk.name) ∧
    (LLM.retryGenerate LLM.orFail 0 LLM.RETRY_ATTEMPTS).1 =
      LLM.RETRY_ATTEMPTS :=
  C1_retry_then_failover LLM.orFail [LLM.pxOk] LLM.pxOk
    "Timeout error" "Timeout error" "Timeout error" rfl rfl rfl rfl

theorem generateFrom_allFail (l : List LLM.Provider)
    (errs : List (String × String))
    (hf : ∀ p ∈ l, LLM.succeeds p = false) :
    LLM.generateFrom l errs =
      Except.error
        (errs.reverse ++ l.map fun p => (p.name, LLM.lastFailure p)) := by
  induction l generalizing errs with
  | nil => simp [LLM.generateFrom]
  | cons p rest ih =>
    have hp : LLM.succeeds p = false := hf p (List.mem_cons_self p rest)
    rcases hok : (LLM.retryGenerate p 0 LLM.RETRY_ATTEMPTS).2 with e | c
    · have hlast : LLM.lastFailure p = e := by simp [LLM.lastFailure, hok]
      rw [show LLM.generateFrom (p :: rest) errs =
          LLM.generateFrom rest ((p.name, e) :: errs) from by
        simp [LLM.generateFrom, hok]]
      rw [ih _ (fun x hx => hf x (List.mem_cons_of_mem _ hx))]
      simp [hlast]
    · simp [LLM.succeeds, hok] at hp

/-- C2: when every configured provider fails all of its attempts, generate
fails with a single aggregated error listing (provider name, last failure
reason) for every provider in order, not only the last one tried. -/
theorem C2_aggregated_error (providers : List LLM.Provider)
    (hf : ∀ p ∈ providers, LLM.succeeds p = false) :
    LLM.generate providers true =
      Except.error (providers.map fun p => (p.name, LLM.lastFailure p)) := by
  simpa [LLM.generate] using generateFrom_allFail providers [] hf

/-- Witness for C2: both providers failing yields the aggregated two-entry
error in provider order. -/
theorem C2_aggregated_error_witness :
    LLM.generate [LLM.orFail, LLM.pxFail] true =
      Except.error
        ([LLM.orFail, LLM.pxFail].map fun p => (p.name, LLM.lastFailure p)) :=
  C2_aggregated_error [LLM.orFail, LLM.pxFail] (by decide)

/-- C3 (code bug): when the first two sources fail and rospravosudie.com
succeeds with a match, search_cases still returns the empty list — the
tertiary source's result is bound and then discarded by the unconditional
final return, contradicting the documented priority-fallback intent. -/
theorem C3_tertiary_result_discarded :
    CaseLaw.search_cases (Except.error "kad.arbitr.ru недоступен")
        (Except.error "sudact.ru недоступен")
        (Except.ok [CaseLaw.rosCase]) = [] := rfl

/-- C4 counterexample: a non-expired cache entry holding the empty list is
treated as a miss by the Python truthiness test, so the lookup reports a
hit yet an external search call is still performed, refuting the claim's
zero-external-calls guarantee for every non-expired entry. -/
theorem C4_cache_counterexample :
    CaseLaw.get_cached_result CaseLaw.emptyEntryCache 0 "неустойка" =
      some [] ∧
    (CaseLaw.kadSearchCached CaseLaw.emptyEntryCache 0 "неустойка"
        [CaseLaw.kadCase]).2.2 = 1 := by
  constructor <;> rfl

/-- C4 amended: a non-expired cache entry holding a nonempty value is served
with zero external calls; a miss performs one external call and caches its
result for CACHE_TTL = 3600 seconds; and after a nonempty result is cached,
an identical query within the TTL window performs no new outbound call. -/
theorem C4_cache_behavior (cache : CaseLaw.Cache) (now now2 : Nat)
    (query : String) (sr sr2 : List CaseLaw.CaseRecord) :
    (∀ v, CaseLaw.get_cached_result cache now query = some v →
        v.isEmpty = false →
        CaseLaw.kadSearchCached cache now query sr = (v, cache, 0)) ∧
    (CaseLaw.get_cached_result cache now query = none →
        CaseLaw.kadSearchCached cache now query sr =
          (sr, CaseLaw.cache_search_result cache now query sr, 1)) ∧
    (sr.isEmpty = false → now2 < now + CaseLaw.CACHE_TTL →
        CaseLaw.kadSearchCached
            (CaseLaw.cache_search_result cache now query sr) now2 query sr2 =
          (sr, CaseLaw.cache_search_result cache now query sr, 0)) := by
  refine ⟨?_, ?_, ?_⟩
  · intro v hv hne
    simp [CaseLaw.kadSearchCached, hv, hne]
  · intro h
    simp [CaseLaw.kadSearchCached, h]
  · intro hne hlt
    have hget : CaseLaw.get_cached_result
        (CaseLaw.cache_search_result cache now query sr) now2 query =
        some sr := by
      simp [CaseLaw.get_cached_result, CaseLaw.cacheGet,
        CaseLaw.cache_search_result, CaseLaw.setex, List.find?_cons, hlt]
    simp [CaseLaw.kadSearchCached, hget, hne]

/-- Witness for C4 at concrete inputs: a nonempty cached entry is served
without an external call, a miss searches and caches, and a repeat of the
same query within the TTL is served from the fresh cache. -/
theorem C4_cache_behavior_witness :
    (CaseLaw.kadSearchCached [("search:q3", [CaseLaw.kadCase], 50)] 0 "q3"
        [] = ([CaseLaw.kadCase], [("search:q3", [CaseLaw.kadCase], 50)], 0)) ∧
    (CaseLaw.kadSearchCached [] 0 "q2" [CaseLaw.kadCase] =
      ([CaseLaw.kadCase],
       CaseLaw.cache_search_result [] 0 "q2" [CaseLaw.kadCase], 1)) ∧
    (CaseLaw.kadSearchCached
        (CaseLaw.cache_search_result [] 0 "неустойка" [CaseLaw.kadCase])
        10 "неустойка" [] =
      ([CaseLaw.kadCase],
       CaseLaw.cache_search_result [] 0 "неустойка" [CaseLaw.kadCase], 0)) :=
  ⟨(C4_cache_behavior [("search:q3", [CaseLaw.kadCase], 50)] 0 0 "q3" [] []).1
      [CaseLaw.kadCase] rfl rfl,
   (C4_cache_behavior [] 0 0 "q2" [CaseLaw.kadCase] []).2.1 rfl,
   (C4_cache_behavior [] 0 10 "неустойка" [CaseLaw.kadCase] []).2.2 rfl
     (by decide)⟩

/-- C5: an uncaught stage failure is captured into the state's error field
and the engine still executes every remaining declared stage on the
error-carrying state, reaching the terminal state after the last stage — a
stage failure never aborts the pipeline. -/
theorem C5_stage_failure_never_aborts (pre post : List Graph.Stage)
    (s : Graph.Stage) (init : Graph.AgentState) (e : String)
    (hfail : s.run (Graph.engineRun pre init) = Except.error e) :
    Graph.engineRun (pre ++ s :: post) init =
      Graph.engineRun post
        { Graph.engineRun pre init with error := some e } := by
  unfold Graph.engineRun at hfail ⊢
  rw [List.foldl_append, List.foldl_cons]
  simp only [Graph.runStage, hfail]

/-- Witness for C5: a failing search_norms stage is captured into error and
the following stage still runs. -/
theorem C5_stage_failure_never_aborts_witness :
    Graph.engineRun ([] ++ Graph.failingStage :: [Graph.noopStage])
        (Graph.initState "вопрос") =
      Graph.engineRun [Graph.noopStage]
        { Graph.engineRun [] (Graph.initState "вопрос") with
            error := some "db down" } :=
  C5_stage_failure_never_aborts [] [Graph.noopStage] Graph.failingStage
    (Graph.initState "вопрос") "db down" rfl

/-- C6: the compiled graph declares exactly the five nodes in the fixed order
classify_query, search_norms, search_cases, generate_answer,
verify_citation, and a run appends exactly these names to the initial trace
in that order, so the trace is append-only and its insertion order equals
the execution order. -/
theorem C6_trace_insertion_order (classifier : String → String)
    (retrieved : List String)
    (kadRes sudactRes rosRes : CaseLaw.SourceResult)
    (llm : String → String) (init : Graph.AgentState) :
    ((Graph.legalGraph classifier retrieved kadRes sudactRes rosRes llm).map
        Graph.Stage.name = Graph.NODES) ∧
    (Graph.engineRun
        (Graph.legalGraph classifier retrieved kadRes sudactRes rosRes llm)
        init).trace = init.trace ++ Graph.NODES := by
  constructor
  · rfl
  · simp [Graph.engineRun, Graph.legalGraph, Graph.runStage,
      Graph.classify_query, Graph.search_norms, Graph.search_cases_node,
      Graph.generate_answer, Graph.verify_citation, Graph.NODES]

theorem dedupById_subset (l : List Retriever.Chunk) :
    Retriever.dedupById l ⊆ l := by
  induction l using Retriever.dedupById.induct with
  | case1 => simp [Retriever.dedupById]
  | case2 c rest ih =>
    simp only [Retriever.dedupById]
    intro x hx
    rcases List.mem_cons.mp hx with rfl | hx2
    · exact List.mem_cons_self x rest
    · exact List.mem_cons_of_mem _ (List.mem_of_mem_filter (ih hx2))

theorem mem_map_id_dedupById (l : List Retriever.Chunk) (x : Nat) :
    x ∈ (Retriever.dedupById l).map Retriever.Chunk.id ↔
      x ∈ l.map Retriever.Chunk.id := by
  induction l using Retriever.dedupById.induct with
  | case1 => simp [Retriever.dedupById]
  | case2 c rest ih =>
    simp only [Retriever.dedupById, List.map_cons, List.mem_cons, ih,
      List.mem_map, List.mem_filter]
    constructor
    · rintro (rfl | ⟨d, ⟨hd, _⟩, rfl⟩)
      · exact Or.inl rfl
      · exact Or.inr ⟨d, hd, rfl⟩
    · rintro (rfl | ⟨d, hd, rfl⟩)
      · exact Or.inl rfl
      · by_cases hdc : d.id = c.id
        · exact Or.inl hdc
        · exact Or.inr ⟨d, ⟨hd, by simpa using hdc⟩, rfl⟩

theorem nodup_map_id_dedupById (l : List Retriever.Chunk) :
    ((Retriever.dedupById l).map Retriever.Chunk.id).Nodup := by
  induction l using Retriever.dedupById.induct with
  | case1 => simp [Retriever.dedupById]
  | case2 c rest ih =>
    simp only [Retriever.dedupById, List.map_cons, List.nodup_cons]
    refine ⟨?_, ih⟩
    intro hc
    obtain ⟨d, hdmem, hdid⟩ :=
      List.mem_map.mp ((mem_map_id_dedupById _ _).mp hc)
    exact absurd hdid (by simpa using (List.mem_filter.mp hdmem).2)

theorem topK_subset (f : Retriever.Chunk → Rat) (corpus : List Retriever.Chunk)
    (K : Nat) : Retriever.topK f corpus K ⊆ corpus := fun _ hx =>
  (List.mergeSort_perm corpus (Retriever.byScoreLE f)).subset
    ((List.take_sublist K _).subset hx)

theorem length_topK (f : Retriever.Chunk → Rat) (corpus : List Retriever.Chunk)
    (K : Nat) : (Retriever.topK f corpus K).length = min K corpus.length := by
  simp [Retriever.topK, List.length_take, List.length_mergeSort]

theorem nodup_map_id_topK (f : Retriever.Chunk → Rat)
    (corpus : List Retriever.Chunk) (K : Nat)
    (hids : (corpus.map Retriever.Chunk.id).Nodup) :
    ((Retriever.topK f corpus K).map Retriever.Chunk.id).Nodup := by
  have hperm :
      ((corpus.mergeSort (Retriever.byScoreLE f)).map
        Retriever.Chunk.id).Perm (corpus.map Retriever.Chunk.id) :=
    (List.mergeSort_perm corpus _).map _
  have hnd :
      ((corpus.mergeSort (Retriever.byScoreLE f)).map
        Retriever.Chunk.id).Nodup := hperm.nodup_iff.mpr hids
  exact List.Nodup.sublist ((List.take_sublist K _).map _) hnd

theorem topK_perm_of_le (f : Retriever.Chunk → Rat)
    (corpus : List Retriever.Chunk) (K : Nat) (h : corpus.length ≤ K) :
    (Retriever.topK f corpus K).Perm corpus := by
  unfold Retriever.topK
  rw [List.take_of_length_le (by rw [List.length_mergeSort]; exact h)]
  exact List.mergeSort_perm corpus _

theorem rankLE_trans (a b c : Retriever.ScoredChunk)
    (hab : Retriever.rankLE a b = true) (hbc : Retriever.rankLE b c = true) :
    Retriever.rankLE a c = true := by
  simp only [Retriever.rankLE, decide_eq_true_eq] at hab hbc ⊢
  rcases hab with h | ⟨h1, h2⟩ <;> rcases hbc with g | ⟨g1, g2⟩
  · exact Or.inl (g.trans h)
  · exact Or.inl (by rw [← g1]; exact h)
  · exact Or.inl (by rw [h1]; exact g)
  · exact Or.inr ⟨h1.trans g1, h2.trans g2⟩

theorem rankLE_total (a b : Retriever.ScoredChunk) :
    (Retriever.rankLE a b || Retriever.rankLE b a) = true := by
  simp only [Retriever.rankLE, Bool.or_eq_true, decide_eq_true_eq]
  rcases lt_trichotomy a.score b.score with h | h | h
  · exact Or.inr (Or.inl h)
  · rcases Nat.le_total a.chunk.offset b.chunk.offset with ho | ho
    · exact Or.inl (Or.inr ⟨h, ho⟩)
    · exact Or.inr (Or.inr ⟨h.symm, ho⟩)
  · exact Or.inl (Or.inl h)

/-- C7: for every corpus with distinct chunk ids and every topN, retrieve
returns a list sorted by final score descending (ties by earliest offset)
whose length is exactly min topN (corpus size) — so exactly topN when the
corpus holds at least topN chunks — and when the corpus holds at most topN
chunks every corpus chunk appears in the output. -/
theorem C7_retrieve_ranked (lex vec : Retriever.Chunk → Rat) (wLex wVec : Rat)
    (corpus : List Retriever.Chunk) (topN : Nat)
    (hids : (corpus.map Retriever.Chunk.id).Nodup) :
    ((Retriever.retrieve lex vec wLex wVec corpus topN).length =
      min topN corpus.length) ∧
    (Retriever.retrieve lex vec wLex wVec corpus topN).Pairwise
      (fun a b => b.score ≤ a.score ∧
        (a.score = b.score → a.chunk.offset ≤ b.chunk.offset)) ∧
    (corpus.length ≤ topN → ∀ c ∈ corpus,
      ∃ s ∈ Retriever.retrieve lex vec wLex wVec corpus topN,
        s.chunk = c) := by
  set K := 3 * topN with hK
  set lexCand := Retriever.topK lex corpus K with hlex
  set vecCand := Retriever.topK vec corpus K with hvec
  set merged := Retriever.dedupById (lexCand ++ vecCand) with hmg
  set scored := merged.map (fun c =>
    Retriever.ScoredChunk.mk c
      (Retriever.finalScore lex vec wLex wVec merged c)) with hsc
  have hret : Retriever.retrieve lex vec wLex wVec corpus topN =
      (scored.mergeSort Retriever.rankLE).take topN := rfl
  have hmid_nodup : (merged.map Retriever.Chunk.id).Nodup :=
    nodup_map_id_dedupById _
  have hm_sub : merged.map Retriever.Chunk.id ⊆
      corpus.map Retriever.Chunk.id := by
    intro x hx
    obtain ⟨d, hd, rfl⟩ := List.mem_map.mp hx
    have hd2 : d ∈ lexCand ++ vecCand := dedupById_subset _ hd
    rcases List.mem_append.mp hd2 with h | h
    · exact List.mem_map_of_mem _ (topK_subset lex corpus K h)
    · exact List.mem_map_of_mem _ (topK_subset vec corpus K h)
  have hm_le : merged.length ≤ corpus.length := by
    have := (hmid_nodup.subperm hm_sub).length_le
    simpa using this
  have hlex_sub_m : lexCand.map Retriever.Chunk.id ⊆
      merged.map Retriever.Chunk.id := by
    intro x hx
    apply (mem_map_id_dedupById (lexCand ++ vecCand) x).mpr
    rw [List.map_append]
    exact List.mem_append_left _ hx
  have hlex_nodup : (lexCand.map Retriever.Chunk.id).Nodup :=
    nodup_map_id_topK lex corpus K hids
  have hlex_le : lexCand.length ≤ merged.length := by
    have := (hlex_nodup.subperm hlex_sub_m).length_le
    simpa using this
  have hlexlen : lexCand.length = min K corpus.length :=
    length_topK lex corpus K
  have hsclen : scored.length = merged.length := by
    rw [hsc, List.length_map]
  have hlen : (Retriever.retrieve lex vec wLex wVec corpus topN).length =
      min topN corpus.length := by
    rw [hret, List.length_take, List.length_mergeSort, hsclen]
    omega
  have hsorted : (Retriever.retrieve lex vec wLex wVec corpus topN).Pairwise
      (fun a b => Retriever.rankLE a b = true) := by
    rw [hret]
    exact List.Pairwise.sublist (List.take_sublist _ _)
      (List.sorted_mergeSort rankLE_trans rankLE_total scored)
  have hpair : (Retriever.retrieve lex vec wLex wVec corpus topN).Pairwise
      (fun a b => b.score ≤ a.score ∧
        (a.score = b.score → a.chunk.offset ≤ b.chunk.offset)) := by
    refine hsorted.imp ?_
    intro a b hab
    simp only [Retriever.rankLE, decide_eq_true_eq] at hab
    rcases hab with h | ⟨h1, h2⟩
    · exact ⟨le_of_lt h, fun heq => absurd h (by simp [heq])⟩
    · exact ⟨le_of_eq h1.symm, fun _ => h2⟩
  refine ⟨hlen, hpair, ?_⟩
  intro hle c hc
  have hKge : corpus.length ≤ K := by omega
  have hlexperm : lexCand.Perm corpus := topK_perm_of_le lex corpus K hKge
  have hcid : c.id ∈ merged.map Retriever.Chunk.id := by
    apply hlex_sub_m
    exact List.mem_map_of_mem _ (hlexperm.mem_iff.mpr hc)
  obtain ⟨d, hd, hdid⟩ := List.mem_map.mp hcid
  have hdcorpus : d ∈ corpus := by
    have hd2 := dedupById_subset _ hd
    rcases List.mem_append.mp hd2 with h | h
    · exact topK_subset lex corpus K h
    · exact topK_subset vec corpus K h
  have hdc : d = c := List.inj_on_of_nodup_map hids hdcorpus hc hdid
  subst hdc
  have hsmem : Retriever.ScoredChunk.mk d
      (Retriever.finalScore lex vec wLex wVec merged d) ∈ scored :=
    List.mem_map_of_mem _ hd
  have hTake : (scored.mergeSort Retriever.rankLE).take topN =
      scored.mergeSort Retriever.rankLE := by
    apply List.take_of_length_le
    rw [List.length_mergeSort, hsclen]
    omega
  refine ⟨Retriever.ScoredChunk.mk d
      (Retriever.finalScore lex vec wLex wVec merged d), ?_, rfl⟩
  rw [hret, hTake]
  exact (List.mergeSort_perm scored _).mem_iff.mpr hsmem

/-- Witness for C7: a concrete two-chunk corpus with topN = 2 yields both
chunks, and in particular the article-330 chunk appears in the output. -/
theorem C7_retrieve_ranked_witness :
    ((Retriever.retrieve (fun c => (c.id : Rat)) (fun _ => (1 : Rat)) 1 1
        [Retriever.chunkA, Retriever.chunkB] 2).length =
      min 2 ([Retriever.chunkA, Retriever.chunkB] : List _).length) ∧
    (∃ s ∈ Retriever.retrieve (fun c => (c.id : Rat)) (fun _ => (1 : Rat)) 1 1
        [Retriever.chunkA, Retriever.chunkB] 2,
      s.chunk = Retriever.chunkA) :=
  ⟨(C7_retrieve_ranked (fun c => (c.id : Rat)) (fun _ => (1 : Rat)) 1 1
      [Retriever.chunkA, Retriever.chunkB] 2 (by decide)).1,
   (C7_retrieve_ranked (fun c => (c.id : Rat)) (fun _ => (1 : Rat)) 1 1
      [Retriever.chunkA, Retriever.chunkB] 2 (by decide)).2.2 (by decide)
     Retriever.chunkA (by decide)⟩
